import Mathlib

/-!
Shallow embedding of the LeetTracker scheduling and delay-cascade core
(`src/lcr/utils/scheduler.py`, `src/lcr/utils/delay_cascade.py`,
`src/lcr/utils/datetime_helper.py`, `src/lcr/database/repository.py`,
`src/lcr/models/review.py`).

Instants are modelled as `Int` microseconds since the Unix epoch (UTC), matching
Python `datetime` resolution; a `timedelta(days=d)` is `d * microsPerDay`
microseconds, and `timedelta.days` is floor division of the difference by a
day's microseconds (`Int.fdiv`), exactly as Python normalises timedeltas.
The database is modelled as a `List Review`; a peewee `select().where(...)`
is a `filter` and `order_by` an insertion sort by the ordering column, and a
loop that mutates and `save()`s each fetched row maps the update over the list.
The jitter entropy source (`random.uniform(-v, v)`) is modelled by an oracle
argument supplying the unit draw in `[-1, 1]` for each call.
-/

def microsPerDay : Int := 86400000000

/-- `lcr.models.review.Review`: the fields the scheduling core reads or writes.
`status` is `"pending"` or `"completed"`; `actual_completion_date` is nullable. -/
structure Review where
  id : Nat
  chain_id : String
  iteration_number : Int
  scheduled_date : Int
  actual_completion_date : Option Int
  status : String
deriving DecidableEq, Repr

/-- `DelayCascade.calculate_delay`: `max(0, (actual - scheduled).days)`. -/
def calculate_delay (scheduled_date actual_completion_date : Int) : Int :=
  max 0 ((actual_completion_date - scheduled_date).fdiv microsPerDay)

/-- `actual_completion_date or completed_review.actual_completion_date`:
a supplied datetime is always truthy, `None` falls back to the record's field. -/
def completionDate (completed_review : Review) (actual_completion_date : Option Int) :
    Option Int :=
  match actual_completion_date with
  | some c => some c
  | none => completed_review.actual_completion_date

/-- The `where` clause of `ReviewRepository.get_future_reviews_in_chain`. -/
def futurePred (chain_id : String) (after_iteration : Int) (rev : Review) : Bool :=
  rev.chain_id == chain_id && rev.status == "pending" &&
    decide (after_iteration < rev.iteration_number)

/-- Order used by `order_by(Review.iteration_number)`. -/
def iterLE (a b : Review) : Prop := a.iteration_number ≤ b.iteration_number

instance : DecidableRel iterLE := fun a b =>
  inferInstanceAs (Decidable (a.iteration_number ≤ b.iteration_number))

instance : IsTotal Review iterLE := ⟨fun a b => le_total a.iteration_number b.iteration_number⟩

instance : IsTrans Review iterLE := ⟨fun _ _ _ h h' => le_trans h h'⟩

/-- Order used by `order_by(Review.scheduled_date)`. -/
def schedLE (a b : Review) : Prop := a.scheduled_date ≤ b.scheduled_date

instance : DecidableRel schedLE := fun a b =>
  inferInstanceAs (Decidable (a.scheduled_date ≤ b.scheduled_date))

instance : IsTotal Review schedLE := ⟨fun a b => le_total a.scheduled_date b.scheduled_date⟩

instance : IsTrans Review schedLE := ⟨fun _ _ _ h h' => le_trans h h'⟩

/-- `ReviewRepository.get_future_reviews_in_chain`: pending rows of the chain with a
strictly greater iteration number, ordered by `iteration_number` ascending. -/
def get_future_reviews_in_chain (db : List Review) (chain_id : String)
    (after_iteration : Int) : List Review :=
  List.insertionSort iterLE (db.filter (futurePred chain_id after_iteration))

/-- `DelayCascade.apply_cascade` acting on the database state: returns the number of
updated rows and the new database, or the `ValueError` message. The Python loop
fetches the matching rows, adds `timedelta(days=delay_days)` to each and saves it,
so the resulting state shifts exactly the rows matching the fetch predicate. -/
def apply_cascade (completed_review : Review) (actual_completion_date : Option Int)
    (db : List Review) : Except String (Nat × List Review) :=
  match completionDate completed_review actual_completion_date with
  | none => Except.error "Review must have an actual_completion_date"
  | some completion_date =>
    if completed_review.status ≠ "completed" then
      Except.error "Review must be completed before applying cascade"
    else
      let delay_days := calculate_delay completed_review.scheduled_date completion_date
      if delay_days = 0 then Except.ok (0, db)
      else
        let future_reviews := get_future_reviews_in_chain db completed_review.chain_id
          completed_review.iteration_number
        Except.ok (future_reviews.length,
          db.map fun rev =>
            if futurePred completed_review.chain_id completed_review.iteration_number rev then
              { rev with scheduled_date := rev.scheduled_date + delay_days * microsPerDay }
            else rev)

/-- One element of the list returned by `DelayCascade.preview_cascade`. -/
structure PreviewEntry where
  review_id : Nat
  iteration : Int
  old_date : Int
  new_date : Int
  delay_days : Int
deriving DecidableEq, Repr

/-- `DelayCascade.preview_cascade`: read-only preview of the cascade. Returns `[]`
when no completion date is available or the delay is zero; never raises. -/
def preview_cascade (completed_review : Review) (actual_completion_date : Option Int)
    (db : List Review) : List PreviewEntry :=
  match completionDate completed_review actual_completion_date with
  | none => []
  | some completion_date =>
    let delay_days := calculate_delay completed_review.scheduled_date completion_date
    if delay_days = 0 then []
    else
      (get_future_reviews_in_chain db completed_review.chain_id
        completed_review.iteration_number).map fun rev =>
        { review_id := rev.id
          iteration := rev.iteration_number
          old_date := rev.scheduled_date
          new_date := rev.scheduled_date + delay_days * microsPerDay
          delay_days := delay_days }

/-- `Review.delay_days` (models/review.py): `0` when no completion date is stored,
else `max(0, (actual - scheduled).days)`. -/
def delay_days (rev : Review) : Int :=
  match rev.actual_completion_date with
  | none => 0
  | some cd => max 0 ((cd - rev.scheduled_date).fdiv microsPerDay)

/-- Rows of a chain: `Review.select().where(Review.chain_id == chain_id)`. -/
def chainRecords (chain_id : String) (db : List Review) : List Review :=
  db.filter fun rev => rev.chain_id == chain_id

/-- Completed rows of a chain. -/
def completedRecords (chain_id : String) (db : List Review) : List Review :=
  (chainRecords chain_id db).filter fun rev => rev.status == "completed"

/-- The dictionary returned by `DelayCascade.get_cascade_statistics`.
`average_delay_days` is a Python float division, modelled exactly in `ℚ`. -/
structure CascadeStats where
  total_reviews : Nat
  completed_reviews : Nat
  pending_reviews : Nat
  total_delay_days : Int
  average_delay_days : ℚ
  max_delay_days : Int
  reviews_with_delay : Nat
deriving DecidableEq, Repr

/-- `DelayCascade.get_cascade_statistics`: aggregates over all rows of a chain,
ordered by iteration number. The `delays` list collects `calculate_delay` for each
completed row that has a (truthy, i.e. present) `actual_completion_date`. -/
def get_cascade_statistics (chain_id : String) (db : List Review) : CascadeStats :=
  let all_reviews := List.insertionSort iterLE (chainRecords chain_id db)
  if all_reviews.isEmpty then
    { total_reviews := 0, completed_reviews := 0, pending_reviews := 0
      total_delay_days := 0, average_delay_days := 0, max_delay_days := 0
      reviews_with_delay := 0 }
  else
    let completed := all_reviews.filter fun rev => rev.status == "completed"
    let pending := all_reviews.filter fun rev => rev.status == "pending"
    let delays := completed.filterMap fun rev =>
      rev.actual_completion_date.map fun cd => calculate_delay rev.scheduled_date cd
    let total_delay := delays.sum
    let reviews_with_delay := delays.countP fun d => decide (0 < d)
    { total_reviews := all_reviews.length
      completed_reviews := completed.length
      pending_reviews := pending.length
      total_delay_days := total_delay
      average_delay_days :=
        if delays.isEmpty then 0 else (total_delay : ℚ) / (delays.length : ℚ)
      max_delay_days :=
        match delays with
        | [] => 0
        | d :: ds => ds.foldl max d
      reviews_with_delay := reviews_with_delay }

/-- Python `round`: round half to even (banker's rounding), as used by
`SpacedRepetitionScheduler._apply_randomization`. -/
def pythonRound (q : ℚ) : Int :=
  let f := ⌊q⌋
  let r := q - (f : ℚ)
  if r < 1 / 2 then f
  else if 1 / 2 < r then f + 1
  else if f % 2 = 0 then f else f + 1

/-- The state of a validated `SpacedRepetitionScheduler`. -/
structure SpacedRepetitionScheduler where
  base_intervals : List Int
  randomization_percentage : ℚ
  min_interval : Int
  max_interval : Int
deriving DecidableEq, Repr

/-- `SpacedRepetitionScheduler.__init__`: validation order as in the source.
`base_intervals or [1, 7, 18, 35]` defaults on `None` (an explicitly supplied empty
list has already raised). The Python defaults are `None`, `15.0`, `1`, `365`.
Returns the constructed scheduler or the `ValueError` message. -/
def mkScheduler (base_intervals : Option (List Int))
    (randomization_percentage : ℚ) (min_interval : Int)
    (max_interval : Int) : Except String SpacedRepetitionScheduler :=
  match base_intervals with
  | some [] => Except.error "base_intervals cannot be empty"
  | _ =>
    let base := match base_intervals with
      | none => [1, 7, 18, 35]
      | some l => if l.isEmpty then [1, 7, 18, 35] else l
    if ¬ base.all (fun i => 0 < i) then
      Except.error "All base_intervals must be positive integers"
    else if ¬ (0 ≤ randomization_percentage ∧ randomization_percentage ≤ 100) then
      Except.error "randomization_percentage must be between 0 and 100"
    else if min_interval < 1 then
      Except.error "min_interval must be at least 1"
    else if max_interval < min_interval then
      Except.error "max_interval must be >= min_interval"
    else
      Except.ok { base_intervals := base
                  randomization_percentage := randomization_percentage
                  min_interval := min_interval
                  max_interval := max_interval }

/-- `SpacedRepetitionScheduler._apply_randomization`: `draw` is the unit sample in
`[-1, 1]` standing for `random.uniform(-variation, variation) / variation`. -/
def applyRandomization (s : SpacedRepetitionScheduler) (base_interval : Int)
    (draw : ℚ) : Int :=
  let variation := (base_interval : ℚ) * (s.randomization_percentage / 100)
  let randomized := (base_interval : ℚ) + variation * draw
  max 1 (pythonRound randomized)

/-- Body of `SpacedRepetitionScheduler.get_interval` after the negativity check
(the iteration is a genuine natural number there). -/
def interval_core (s : SpacedRepetitionScheduler) (iteration : Nat)
    (apply_randomization : Bool) (draw : ℚ) : Int :=
  let base_interval :=
    if iteration ≥ s.base_intervals.length then s.base_intervals.getLastD 0
    else s.base_intervals.getD iteration 0
  let interval :=
    if apply_randomization ∧ 0 < s.randomization_percentage then
      applyRandomization s base_interval draw
    else base_interval
  max s.min_interval (min interval s.max_interval)

/-- `SpacedRepetitionScheduler.get_interval`. -/
def get_interval (s : SpacedRepetitionScheduler) (iteration : Int)
    (apply_randomization : Bool) (draw : ℚ) : Except String Int :=
  if iteration < 0 then Except.error "iteration must be non-negative"
  else Except.ok (interval_core s iteration.toNat apply_randomization draw)

/-- The loop of `SpacedRepetitionScheduler.generate_schedule`: `fuel` iterations
remain, `iteration` is the current index, `current_date` the accumulator. -/
def schedule_go (s : SpacedRepetitionScheduler) (apply_randomization : Bool)
    (draws : Nat → ℚ) : Int → Nat → Nat → List Int
  | _, _, 0 => []
  | current_date, iteration, fuel + 1 =>
    let interval := interval_core s iteration apply_randomization (draws iteration)
    let next_date := current_date + interval * microsPerDay
    next_date :: schedule_go s apply_randomization draws next_date (iteration + 1) fuel

/-- `SpacedRepetitionScheduler.generate_schedule`. -/
def generate_schedule (s : SpacedRepetitionScheduler) (start_date : Int)
    (num_reviews : Option Int) (apply_randomization : Bool) (draws : Nat → ℚ) :
    Except String (List Int) :=
  match num_reviews with
  | none =>
    Except.ok (schedule_go s apply_randomization draws start_date 0 s.base_intervals.length)
  | some n =>
    if n < 1 then Except.error "num_reviews must be at least 1"
    else Except.ok (schedule_go s apply_randomization draws start_date 0 n.toNat)

/-- Days from the civil epoch 1970-01-01 for a proleptic Gregorian date
(Hinnant's `days_from_civil`), to express concrete UTC instants. -/
def daysFromCivil (y m d : Int) : Int :=
  let y' := y - (if m ≤ 2 then 1 else 0)
  let era := y'.fdiv 400
  let yoe := y' - era * 400
  let mp := (m + 9) % 12
  let doy := (153 * mp + 2).fdiv 5 + d - 1
  let doe := yoe * 365 + yoe.fdiv 4 - yoe.fdiv 100 + doy
  era * 146097 + doe - 719468

/-- Microseconds since the Unix epoch of a UTC wall-clock instant. -/
def utcMicros (y m d hh mi ss : Int) : Int :=
  ((daysFromCivil y m d) * 86400 + hh * 3600 + mi * 60 + ss) * 1000000

/-- Modelled from the spec: `DateTimeHelper.end_of_today_local_in_utc` is called by
`ReviewRepository.get_due_reviews` but is not defined in the repository sources.
Per the spec, the end (23:59:59.999999) of the reference instant's calendar day is
computed in the caller's local timezone — represented here by its fixed UTC offset
`tzOffset` in microseconds — and converted back to UTC. -/
def end_of_today_local_in_utc (reference : Int) (tzOffset : Int) : Int :=
  let localMicros := reference + tzOffset
  let localDayStart := (localMicros.fdiv microsPerDay) * microsPerDay
  localDayStart + (microsPerDay - 1) - tzOffset

/-- `ReviewRepository.get_due_reviews`: pending rows scheduled on or before the end
of the reference day in local time, ordered by `scheduled_date` ascending. -/
def get_due_reviews (reference : Int) (tzOffset : Int) (db : List Review) :
    List Review :=
  let end_of_today_utc := end_of_today_local_in_utc reference tzOffset
  List.insertionSort schedLE (db.filter fun rev =>
    rev.status == "pending" && decide (rev.scheduled_date ≤ end_of_today_utc))

/-! ## Helper lemmas -/

lemma fdiv_day_nonpos (x : Int) (h : x ≤ 0) : x.fdiv microsPerDay ≤ 0 := by
  rw [Int.fdiv_eq_ediv x (by decide : (0:Int) ≤ microsPerDay)]
  unfold microsPerDay
  omega

lemma futurePred_iff (ch : String) (it : Int) (rev : Review) :
    futurePred ch it rev = true ↔
      (rev.chain_id = ch ∧ rev.status = "pending" ∧ it < rev.iteration_number) := by
  simp [futurePred, and_assoc]

/-! ## C2: delay formula and on-time no-op -/

/-- C2: the delay used by the cascade is `max 0` of the floor of the day difference
between the actual completion instant and the scheduled instant, and when the
completion is on or before the schedule, `apply_cascade` returns 0 and leaves the
database unchanged. -/
theorem calculate_delay_floor_and_on_time_noop (r : Review) (a : Option Int)
    (db : List Review) (c : Int) (h1 : r.status = "completed")
    (h2 : completionDate r a = some c) :
    calculate_delay r.scheduled_date c =
      max 0 ((c - r.scheduled_date).fdiv microsPerDay) ∧
    (c ≤ r.scheduled_date → apply_cascade r a db = Except.ok (0, db)) := by
  refine ⟨rfl, fun hle => ?_⟩
  have hfd : (c - r.scheduled_date).fdiv microsPerDay ≤ 0 :=
    fdiv_day_nonpos _ (by omega)
  have hd : calculate_delay r.scheduled_date c = 0 := by
    unfold calculate_delay
    exact max_eq_left hfd
  simp [apply_cascade, h2, h1, hd]

theorem calculate_delay_floor_and_on_time_noop_witness :
    calculate_delay microsPerDay 0 =
      max 0 (((0:Int) - microsPerDay).fdiv microsPerDay) ∧
    ((0:Int) ≤ microsPerDay →
      apply_cascade ⟨1, "c", 1, microsPerDay, some 0, "completed"⟩ none
        [⟨2, "c", 2, 2 * microsPerDay, none, "pending"⟩] =
      Except.ok (0, [⟨2, "c", 2, 2 * microsPerDay, none, "pending"⟩])) :=
  calculate_delay_floor_and_on_time_noop
    ⟨1, "c", 1, microsPerDay, some 0, "completed"⟩ none
    [⟨2, "c", 2, 2 * microsPerDay, none, "pending"⟩] 0 rfl rfl

/-! ## C9: negative iteration and non-positive count are rejected -/

/-- C9: a negative iteration makes `get_interval` fail with the `InvalidArgument`
error, and an explicit review count below 1 makes `generate_schedule` fail with the
`InvalidArgument` error; in both cases the result is the same for every random draw
and no output is produced. -/
theorem invalid_iteration_and_count_rejected (s : SpacedRepetitionScheduler)
    (iteration : Int) (hit : iteration < 0) (start n : Int) (hn : n < 1) :
    (∀ (ar : Bool) (draw : ℚ), get_interval s iteration ar draw =
        Except.error "iteration must be non-negative") ∧
    (∀ (ar : Bool) (draws : Nat → ℚ), generate_schedule s start (some n) ar draws =
        Except.error "num_reviews must be at least 1") := by
  constructor
  · intro ar draw
    simp [get_interval, hit]
  · intro ar draws
    simp [generate_schedule, hn]

theorem invalid_iteration_and_count_rejected_witness :
    (∀ (ar : Bool) (draw : ℚ),
      get_interval ⟨[1, 7, 18, 35], 15, 1, 365⟩ (-1) ar draw =
      Except.error "iteration must be non-negative") ∧
    (∀ (ar : Bool) (draws : Nat → ℚ),
      generate_schedule ⟨[1, 7, 18, 35], 15, 1, 365⟩ 0 (some 0) ar draws =
      Except.error "num_reviews must be at least 1") :=
  invalid_iteration_and_count_rejected
    ⟨[1, 7, 18, 35], 15, 1, 365⟩ (-1) (by decide) 0 0 (by decide)

/-! ## C10: preview is silent on missing completion data, apply raises -/

/-- C10: when no completion instant is supplied and none is stored on the record,
`preview_cascade` returns the empty list without an error while `apply_cascade`
fails with the missing-data error: the two companion operations disagree on how
missing completion data is handled. -/
theorem preview_silent_apply_errors_on_missing_completion (r : Review)
    (db : List Review) (h : r.actual_completion_date = none) :
    preview_cascade r none db = [] ∧
    apply_cascade r none db =
      Except.error "Review must have an actual_completion_date" := by
  have hc : completionDate r none = none := by
    simp [completionDate, h]
  constructor
  · simp [preview_cascade, hc]
  · simp [apply_cascade, hc]

theorem preview_silent_apply_errors_on_missing_completion_witness :
    preview_cascade ⟨1, "c", 1, 0, none, "completed"⟩ none
      [⟨2, "c", 2, microsPerDay, none, "pending"⟩] = [] ∧
    apply_cascade ⟨1, "c", 1, 0, none, "completed"⟩ none
      [⟨2, "c", 2, microsPerDay, none, "pending"⟩] =
      Except.error "Review must have an actual_completion_date" :=
  preview_silent_apply_errors_on_missing_completion
    ⟨1, "c", 1, 0, none, "completed"⟩
    [⟨2, "c", 2, microsPerDay, none, "pending"⟩] rfl


/-! ## C6: construction validation -/

lemma mkScheduler_branches (base : List Int) (rp : ℚ) (mn mx : Int)
    (s : SpacedRepetitionScheduler)
    (h : (if ¬ base.all (fun i => 0 < i) then
        (Except.error "All base_intervals must be positive integers" :
          Except String SpacedRepetitionScheduler)
      else if ¬ (0 ≤ rp ∧ rp ≤ 100) then
        Except.error "randomization_percentage must be between 0 and 100"
      else if mn < 1 then
        Except.error "min_interval must be at least 1"
      else if mx < mn then
        Except.error "max_interval must be >= min_interval"
      else Except.ok ⟨base, rp, mn, mx⟩) = Except.ok s) :
    s = ⟨base, rp, mn, mx⟩ ∧ (∀ y ∈ base, 0 < y) ∧
      0 ≤ rp ∧ rp ≤ 100 ∧ 1 ≤ mn ∧ mn ≤ mx := by
  split_ifs at h with h1 h2 h3 h4
  all_goals cases h
  simp only [List.all_eq_true, decide_eq_true_eq] at h1
  exact ⟨rfl, h1, h2.1, h2.2, by omega, by omega⟩

lemma mkScheduler_ok_spec (bi : Option (List Int)) (rp : ℚ) (mn mx : Int)
    (s : SpacedRepetitionScheduler) (hs : mkScheduler bi rp mn mx = Except.ok s) :
    s.base_intervals ≠ [] ∧ (∀ y ∈ s.base_intervals, 0 < y) ∧
    s.randomization_percentage = rp ∧ 0 ≤ rp ∧ rp ≤ 100 ∧
    s.min_interval = mn ∧ 1 ≤ mn ∧ s.max_interval = mx ∧ mn ≤ mx ∧
    (∀ l, bi = some l → l ≠ [] → s.base_intervals = l) := by
  rcases bi with _ | l
  · obtain ⟨hseq, hpos, h0, h100, hmn, hmx⟩ :=
      mkScheduler_branches [1, 7, 18, 35] rp mn mx s (by simpa [mkScheduler] using hs)
    subst hseq
    exact ⟨by simp, hpos, rfl, h0, h100, rfl, hmn, rfl, hmx, fun l hl => by cases hl⟩
  · rcases l with _ | ⟨x, xs⟩
    · exact absurd hs (by simp [mkScheduler])
    · obtain ⟨hseq, hpos, h0, h100, hmn, hmx⟩ :=
        mkScheduler_branches (x :: xs) rp mn mx s (by simpa [mkScheduler] using hs)
      subst hseq
      refine ⟨by simp, hpos, rfl, h0, h100, rfl, hmn, rfl, hmx, ?_⟩
      intro l hl _
      cases hl
      rfl

/-- C6: constructing the scheduler with an explicit base-interval list fails exactly
when the list is empty, contains a non-positive entry, the jitter percentage (100
times the jitter fraction) lies outside `[0, 100]` (the fraction outside `[0, 1]`),
`min_interval < 1`, or `max_interval < min_interval`; in particular `base = []` is
rejected, as is jitter fraction `1.5` (percentage `150`). -/
theorem mkScheduler_error_iff (l : List Int) (rp : ℚ) (mn mx : Int) :
    ((∃ e, mkScheduler (some l) rp mn mx = Except.error e) ↔
      (l = [] ∨ (∃ x ∈ l, x ≤ 0) ∨ rp < 0 ∨ 100 < rp ∨ mn < 1 ∨ mx < mn)) ∧
    mkScheduler (some []) 15 1 365 = Except.error "base_intervals cannot be empty" ∧
    mkScheduler none 150 1 365 =
      Except.error "randomization_percentage must be between 0 and 100" := by
  refine ⟨⟨?_, ?_⟩, rfl, rfl⟩
  · rintro ⟨e, he⟩
    by_contra hcon
    push_neg at hcon
    obtain ⟨hne, hpos, h0, h100, hmn, hmx⟩ := hcon
    rcases l with _ | ⟨x, xs⟩
    · exact hne rfl
    · have hall : ((x :: xs).all fun i => decide (0 < i)) = true := by
        simp only [List.all_eq_true, decide_eq_true_eq]
        intro y hy
        have := hpos y hy
        omega
      have hok : mkScheduler (some (x :: xs)) rp mn mx =
          Except.ok ⟨x :: xs, rp, mn, mx⟩ := by
        simp only [mkScheduler, List.isEmpty_cons]
        split_ifs with a b c d <;> first | rfl | omega | simp_all
      rw [hok] at he
      cases he
  · intro hor
    rcases hres : mkScheduler (some l) rp mn mx with e | s
    · exact ⟨e, rfl⟩
    · exfalso
      obtain ⟨hne, hpos, _, h0, h100, _, hmn, _, hmx, hbase⟩ :=
        mkScheduler_ok_spec _ _ _ _ _ hres
      rcases l with _ | ⟨x, xs⟩
      · exact absurd hres (by simp [mkScheduler])
      · have hb : s.base_intervals = x :: xs :=
          hbase (x :: xs) rfl (List.cons_ne_nil x xs)
        rcases hor with h | h | h | h | h | h
        · exact List.cons_ne_nil _ _ h
        · obtain ⟨y, hy, hy'⟩ := h
          have := hpos y (hb ▸ hy)
          omega
        · exact absurd h (not_lt.mpr h0)
        · exact absurd h (not_lt.mpr h100)
        · omega
        · omega

/-! ## C5: unjittered interval is the clamped base value -/

lemma getLastD_eq_getD_pred : ∀ (l : List Int), l ≠ [] →
    l.getLastD 0 = l.getD (l.length - 1) 0 := by
  intro l
  induction l with
  | nil => intro h; exact absurd rfl h
  | cons x xs ih =>
    intro _
    rcases xs with _ | ⟨y, ys⟩
    · rfl
    · have := ih (List.cons_ne_nil y ys)
      simpa [List.getLastD, List.getD] using this

theorem get_interval_clamped_base (bi : Option (List Int)) (rp : ℚ) (mn mx : Int)
    (s : SpacedRepetitionScheduler) (hs : mkScheduler bi rp mn mx = Except.ok s)
    (iteration : Int) (hit : 0 ≤ iteration) (draw : ℚ) :
    get_interval s iteration false draw = Except.ok
      (max s.min_interval (min
        (s.base_intervals.getD (min iteration.toNat (s.base_intervals.length - 1)) 0)
        s.max_interval)) := by
  obtain ⟨hne, -, -, -, -, -, -, -, -, -⟩ := mkScheduler_ok_spec _ _ _ _ _ hs
  have hlen : 1 ≤ s.base_intervals.length := by
    cases hb : s.base_intervals with
    | nil => exact absurd hb hne
    | cons a as => simp [hb]
  have hbase : (if iteration.toNat ≥ s.base_intervals.length then
        s.base_intervals.getLastD 0
      else s.base_intervals.getD iteration.toNat 0) =
      s.base_intervals.getD (min iteration.toNat (s.base_intervals.length - 1)) 0 := by
    by_cases hge : iteration.toNat ≥ s.base_intervals.length
    · rw [if_pos hge, getLastD_eq_getD_pred _ hne]
      congr 1
      omega
    · rw [if_neg hge]
      congr 1
      omega
  rw [get_interval, if_neg (by omega)]
  simp only [interval_core, Bool.false_eq_true, false_and, if_false, hbase]

/-- C5 counterexample: `base = [5]`, `min_interval = 10`, `max_interval = 365` passes
construction validation, yet `get_interval 0` without randomization returns the
clamped value `10`, not the base value `base[min(0, len-1)] = 5` the claim
requires. -/
theorem get_interval_clamping_counterexample :
    mkScheduler (some [5]) 15 10 365 = Except.ok ⟨[5], 15, 10, 365⟩ ∧
    get_interval ⟨[5], 15, 10, 365⟩ 0 false 0 = Except.ok 10 ∧
    ([5] : List Int).getD (min (Int.toNat 0) (([5] : List Int).length - 1)) 0 = 5 ∧
    (10 : Int) ≠ 5 := by
  refine ⟨rfl, rfl, rfl, by decide⟩

theorem get_interval_clamped_base_witness :
    get_interval ⟨[5], 15, 10, 365⟩ 3 false 0 = Except.ok
      (max (⟨[5], 15, 10, 365⟩ : SpacedRepetitionScheduler).min_interval (min
        ((⟨[5], 15, 10, 365⟩ : SpacedRepetitionScheduler).base_intervals.getD
          (min (Int.toNat 3)
            ((⟨[5], 15, 10, 365⟩ : SpacedRepetitionScheduler).base_intervals.length - 1)) 0)
        (⟨[5], 15, 10, 365⟩ : SpacedRepetitionScheduler).max_interval)) :=
  get_interval_clamped_base (some [5]) 15 10 365 ⟨[5], 15, 10, 365⟩ rfl 3 (by decide) 0

/-! ## C4: schedule generation -/

lemma schedule_go_length (s : SpacedRepetitionScheduler) (ar : Bool) (draws : Nat → ℚ) :
    ∀ (n i : Nat) (cur : Int), (schedule_go s ar draws cur i n).length = n := by
  intro n
  induction n with
  | zero => intro i cur; rfl
  | succ m ih => intro i cur; simp [schedule_go, ih]

lemma interval_core_pos (s : SpacedRepetitionScheduler) (h : 1 ≤ s.min_interval)
    (i : Nat) (ar : Bool) (d : ℚ) : 1 ≤ interval_core s i ar d := by
  simp only [interval_core]
  exact le_trans h (le_max_left _ _)

lemma schedule_go_chain (s : SpacedRepetitionScheduler) (ar : Bool) (draws : Nat → ℚ)
    (h : 1 ≤ s.min_interval) :
    ∀ (n i : Nat) (cur : Int), List.Chain (· < ·) cur (schedule_go s ar draws cur i n) := by
  intro n
  induction n with
  | zero => intro i cur; exact List.Chain.nil
  | succ m ih =>
    intro i cur
    have hiv : 1 ≤ interval_core s i ar (draws i) := interval_core_pos s h i ar (draws i)
    have hday : microsPerDay ≤ interval_core s i ar (draws i) * microsPerDay :=
      le_mul_of_one_le_left (by decide) hiv
    have hd : (0:Int) < microsPerDay := by decide
    exact List.Chain.cons (by omega) (ih (i + 1) _)

lemma schedule_go_get_zero (s : SpacedRepetitionScheduler) (ar : Bool) (draws : Nat → ℚ)
    (cur : Int) (i f : Nat) :
    (schedule_go s ar draws cur i (f + 1)).get ⟨0, by rw [schedule_go_length]; omega⟩ =
      cur + interval_core s i ar (draws i) * microsPerDay := rfl

lemma schedule_go_get_succ (s : SpacedRepetitionScheduler) (ar : Bool) (draws : Nat → ℚ) :
    ∀ (n i : Nat) (cur : Int) (j : Nat) (h1 : j + 1 < n) (h2 : j < n),
      (schedule_go s ar draws cur i n).get ⟨j + 1, by rw [schedule_go_length]; exact h1⟩ =
      (schedule_go s ar draws cur i n).get ⟨j, by rw [schedule_go_length]; exact h2⟩ +
        interval_core s (i + j + 1) ar (draws (i + j + 1)) * microsPerDay := by
  intro n
  induction n with
  | zero => intro i cur j h1 h2; omega
  | succ m ih =>
    intro i cur j h1 h2
    rcases j with _ | j'
    · show (schedule_go s ar draws _ (i + 1) m).get ⟨0, _⟩ = _
      rcases m with _ | f
      · omega
      · rw [schedule_go_get_zero]
        simp only [schedule_go]
        congr 2
    · show (schedule_go s ar draws _ (i + 1) m).get ⟨j' + 1, _⟩ = _
      have := ih (i + 1) (cur + interval_core s i ar (draws i) * microsPerDay) j'
        (by omega) (by omega)
      rw [this]
      have harg : i + 1 + j' + 1 = i + (j' + 1) + 1 := by omega
      rw [harg]
      rfl

/-- C4: for every validly constructed scheduler, start instant and count `n ≥ 1`,
`generate_schedule` succeeds with a strictly increasing sequence of exactly `n`
instants built iteratively by adding `interval_core` days at each step; with base
intervals `[1, 7, 18, 35]`, no jitter and start `2024-01-01T12:00:00Z` the schedule
is `[2024-01-02, 2024-01-09, 2024-01-27, 2024-03-02]` at `12:00:00Z`. -/
theorem generate_schedule_spec (bi : Option (List Int)) (rp : ℚ) (mn mx : Int)
    (s : SpacedRepetitionScheduler) (hs : mkScheduler bi rp mn mx = Except.ok s)
    (start : Int) (n : Int) (hn : 1 ≤ n) (ar : Bool) (draws : Nat → ℚ) :
    (∃ l, generate_schedule s start (some n) ar draws = Except.ok l ∧
      l.length = n.toNat ∧
      List.Chain (· < ·) start l ∧
      l.head? = some (start + interval_core s 0 ar (draws 0) * microsPerDay) ∧
      ∀ j (hj1 : j + 1 < l.length) (hj2 : j < l.length),
        l[j + 1] = l[j] + interval_core s (j + 1) ar (draws (j + 1)) * microsPerDay) ∧
    generate_schedule ⟨[1, 7, 18, 35], 15, 1, 365⟩ (utcMicros 2024 1 1 12 0 0) (some 4)
        false (fun _ => 0) =
      Except.ok [utcMicros 2024 1 2 12 0 0, utcMicros 2024 1 9 12 0 0,
        utcMicros 2024 1 27 12 0 0, utcMicros 2024 3 2 12 0 0] := by
  constructor
  · obtain ⟨-, -, -, -, -, hmineq, hmn1, -, -, -⟩ := mkScheduler_ok_spec _ _ _ _ _ hs
    have hminpos : 1 ≤ s.min_interval := by omega
    refine ⟨schedule_go s ar draws start 0 n.toNat, ?_, ?_, ?_, ?_, ?_⟩
    · rw [generate_schedule, if_neg (by omega)]
    · exact schedule_go_length s ar draws n.toNat 0 start
    · exact schedule_go_chain s ar draws hminpos n.toNat 0 start
    · obtain ⟨m, hm⟩ : ∃ m, n.toNat = m + 1 := ⟨n.toNat - 1, by omega⟩
      rw [hm]
      rfl
    · intro j hj1 hj2
      rw [schedule_go_length] at hj1 hj2
      have := schedule_go_get_succ s ar draws n.toNat 0 start j hj1 hj2
      simpa using this
  · rfl


theorem generate_schedule_spec_witness :
    (∃ l, generate_schedule ⟨[1, 7, 18, 35], 15, 1, 365⟩ (utcMicros 2024 1 1 12 0 0)
        (some 4) false (fun _ => 0) = Except.ok l ∧
      l.length = (4 : Int).toNat ∧
      List.Chain (· < ·) (utcMicros 2024 1 1 12 0 0) l ∧
      l.head? = some (utcMicros 2024 1 1 12 0 0 +
        interval_core ⟨[1, 7, 18, 35], 15, 1, 365⟩ 0 false 0 * microsPerDay) ∧
      ∀ j (hj1 : j + 1 < l.length) (hj2 : j < l.length),
        l[j + 1] = l[j] +
          interval_core ⟨[1, 7, 18, 35], 15, 1, 365⟩ (j + 1) false 0 * microsPerDay) ∧
    generate_schedule ⟨[1, 7, 18, 35], 15, 1, 365⟩ (utcMicros 2024 1 1 12 0 0) (some 4)
        false (fun _ => 0) =
      Except.ok [utcMicros 2024 1 2 12 0 0, utcMicros 2024 1 9 12 0 0,
        utcMicros 2024 1 27 12 0 0, utcMicros 2024 3 2 12 0 0] :=
  generate_schedule_spec none 15 1 365 ⟨[1, 7, 18, 35], 15, 1, 365⟩ rfl
    (utcMicros 2024 1 1 12 0 0) 4 (by decide) false (fun _ => 0)

/-! ## C1: the cascade shifts exactly the future pending siblings -/

/-- C1: on a late completion (positive day delay), `apply_cascade` shifts the
scheduled instant of exactly the pending records of the same chain with a strictly
greater iteration number, each forward by exactly `delay_days` whole days, returns
the number of shifted records, and leaves every other record unchanged. -/
theorem apply_cascade_shifts_exactly_future_pending
    (r : Review) (a : Option Int) (db : List Review) (c : Int)
    (h1 : r.status = "completed") (h2 : completionDate r a = some c)
    (h3 : r.scheduled_date < c) (h4 : 0 < calculate_delay r.scheduled_date c) :
    ∃ db', apply_cascade r a db = Except.ok
        (db.countP fun rev => decide (rev.chain_id = r.chain_id ∧
          rev.status = "pending" ∧ r.iteration_number < rev.iteration_number), db') ∧
      db'.length = db.length ∧
      ∀ i (hi : i < db.length) (hi' : i < db'.length),
        (db[i].chain_id = r.chain_id ∧ db[i].status = "pending" ∧
            r.iteration_number < db[i].iteration_number →
          db'[i] = { db[i] with scheduled_date :=
            db[i].scheduled_date + calculate_delay r.scheduled_date c * microsPerDay }) ∧
        (¬ (db[i].chain_id = r.chain_id ∧ db[i].status = "pending" ∧
            r.iteration_number < db[i].iteration_number) →
          db'[i] = db[i]) := by
  refine ⟨db.map (fun rev =>
      if futurePred r.chain_id r.iteration_number rev then
        { rev with scheduled_date :=
          rev.scheduled_date + calculate_delay r.scheduled_date c * microsPerDay }
      else rev), ?_, ?_, ?_⟩
  · have hcount : (get_future_reviews_in_chain db r.chain_id r.iteration_number).length
        = db.countP fun rev => decide (rev.chain_id = r.chain_id ∧
          rev.status = "pending" ∧ r.iteration_number < rev.iteration_number) := by
      rw [get_future_reviews_in_chain, List.length_insertionSort,
        ← List.countP_eq_length_filter]
      refine List.countP_congr ?_
      intro rev _
      rw [futurePred_iff, decide_eq_true_eq]
    rw [apply_cascade, h2]
    simp only [h1, ne_eq, not_true_eq_false, if_false, if_neg (by omega : ¬ calculate_delay r.scheduled_date c = 0)]
    rw [hcount]
  · simp
  · intro i hi hi'
    constructor
    · intro hp
      rw [List.getElem_map, if_pos ((futurePred_iff _ _ _).mpr hp)]
    · intro hp
      rw [List.getElem_map, if_neg (fun hcontra => hp ((futurePred_iff _ _ _).mp hcontra))]


theorem apply_cascade_shifts_exactly_future_pending_witness :
    ∃ db', apply_cascade ⟨1, "c", 1, 0, some (3 * microsPerDay), "completed"⟩ none
        [⟨1, "c", 1, 0, some (3 * microsPerDay), "completed"⟩,
         ⟨2, "c", 2, 7 * microsPerDay, none, "pending"⟩,
         ⟨3, "c", 3, 18 * microsPerDay, none, "pending"⟩,
         ⟨4, "c", 0, -microsPerDay, some 0, "completed"⟩,
         ⟨5, "d", 9, 0, none, "pending"⟩] = Except.ok (2, db') ∧
      db'.length = 5 ∧
      ∀ i (hi : i < ([⟨1, "c", 1, 0, some (3 * microsPerDay), "completed"⟩,
          ⟨2, "c", 2, 7 * microsPerDay, none, "pending"⟩,
          ⟨3, "c", 3, 18 * microsPerDay, none, "pending"⟩,
          ⟨4, "c", 0, -microsPerDay, some 0, "completed"⟩,
          ⟨5, "d", 9, 0, none, "pending"⟩] : List Review).length)
        (hi' : i < db'.length),
        (([⟨1, "c", 1, 0, some (3 * microsPerDay), "completed"⟩,
           ⟨2, "c", 2, 7 * microsPerDay, none, "pending"⟩,
           ⟨3, "c", 3, 18 * microsPerDay, none, "pending"⟩,
           ⟨4, "c", 0, -microsPerDay, some 0, "completed"⟩,
           ⟨5, "d", 9, 0, none, "pending"⟩] : List Review)[i].chain_id = "c" ∧
            ([⟨1, "c", 1, 0, some (3 * microsPerDay), "completed"⟩,
             ⟨2, "c", 2, 7 * microsPerDay, none, "pending"⟩,
             ⟨3, "c", 3, 18 * microsPerDay, none, "pending"⟩,
             ⟨4, "c", 0, -microsPerDay, some 0, "completed"⟩,
             ⟨5, "d", 9, 0, none, "pending"⟩] : List Review)[i].status = "pending" ∧
            (1 : Int) < ([⟨1, "c", 1, 0, some (3 * microsPerDay), "completed"⟩,
             ⟨2, "c", 2, 7 * microsPerDay, none, "pending"⟩,
             ⟨3, "c", 3, 18 * microsPerDay, none, "pending"⟩,
             ⟨4, "c", 0, -microsPerDay, some 0, "completed"⟩,
             ⟨5, "d", 9, 0, none, "pending"⟩] : List Review)[i].iteration_number →
          db'[i] = { ([⟨1, "c", 1, 0, some (3 * microsPerDay), "completed"⟩,
             ⟨2, "c", 2, 7 * microsPerDay, none, "pending"⟩,
             ⟨3, "c", 3, 18 * microsPerDay, none, "pending"⟩,
             ⟨4, "c", 0, -microsPerDay, some 0, "completed"⟩,
             ⟨5, "d", 9, 0, none, "pending"⟩] : List Review)[i] with
            scheduled_date := ([⟨1, "c", 1, 0, some (3 * microsPerDay), "completed"⟩,
             ⟨2, "c", 2, 7 * microsPerDay, none, "pending"⟩,
             ⟨3, "c", 3, 18 * microsPerDay, none, "pending"⟩,
             ⟨4, "c", 0, -microsPerDay, some 0, "completed"⟩,
             ⟨5, "d", 9, 0, none, "pending"⟩] : List Review)[i].scheduled_date +
              3 * microsPerDay }) ∧
        (¬ (([⟨1, "c", 1, 0, some (3 * microsPerDay), "completed"⟩,
           ⟨2, "c", 2, 7 * microsPerDay, none, "pending"⟩,
           ⟨3, "c", 3, 18 * microsPerDay, none, "pending"⟩,
           ⟨4, "c", 0, -microsPerDay, some 0, "completed"⟩,
           ⟨5, "d", 9, 0, none, "pending"⟩] : List Review)[i].chain_id = "c" ∧
            ([⟨1, "c", 1, 0, some (3 * microsPerDay), "completed"⟩,
             ⟨2, "c", 2, 7 * microsPerDay, none, "pending"⟩,
             ⟨3, "c", 3, 18 * microsPerDay, none, "pending"⟩,
             ⟨4, "c", 0, -microsPerDay, some 0, "completed"⟩,
             ⟨5, "d", 9, 0, none, "pending"⟩] : List Review)[i].status = "pending" ∧
            (1 : Int) < ([⟨1, "c", 1, 0, some (3 * microsPerDay), "completed"⟩,
             ⟨2, "c", 2, 7 * microsPerDay, none, "pending"⟩,
             ⟨3, "c", 3, 18 * microsPerDay, none, "pending"⟩,
             ⟨4, "c", 0, -microsPerDay, some 0, "completed"⟩,
             ⟨5, "d", 9, 0, none, "pending"⟩] : List Review)[i].iteration_number) →
          db'[i] = ([⟨1, "c", 1, 0, some (3 * microsPerDay), "completed"⟩,
             ⟨2, "c", 2, 7 * microsPerDay, none, "pending"⟩,
             ⟨3, "c", 3, 18 * microsPerDay, none, "pending"⟩,
             ⟨4, "c", 0, -microsPerDay, some 0, "completed"⟩,
             ⟨5, "d", 9, 0, none, "pending"⟩] : List Review)[i]) :=
  apply_cascade_shifts_exactly_future_pending
    ⟨1, "c", 1, 0, some (3 * microsPerDay), "completed"⟩ none
    [⟨1, "c", 1, 0, some (3 * microsPerDay), "completed"⟩,
     ⟨2, "c", 2, 7 * microsPerDay, none, "pending"⟩,
     ⟨3, "c", 3, 18 * microsPerDay, none, "pending"⟩,
     ⟨4, "c", 0, -microsPerDay, some 0, "completed"⟩,
     ⟨5, "d", 9, 0, none, "pending"⟩] (3 * microsPerDay)
    rfl rfl (by decide) (by decide)

/-! ## C3: preview and apply share the same cascade computation -/

lemma zip_self_countP_ne (db : List Review) :
    ((db.zip db).countP fun p => decide (p.1.scheduled_date ≠ p.2.scheduled_date)) = 0 := by
  induction db with
  | nil => rfl
  | cons x xs ih => simpa [List.zip_cons_cons, List.countP_cons] using ih

lemma zip_map_countP (f : Review → Review) (q : Review × Review → Bool) :
    ∀ (db : List Review),
      ((db.zip (db.map f)).countP q) = db.countP (fun x => q (x, f x)) := by
  intro db
  induction db with
  | nil => rfl
  | cons x xs ih => simp [List.zip_cons_cons, List.countP_cons, ih]

/-- C3: for a completed record with an available completion instant, `apply_cascade`
succeeds, returns as count exactly the number of preview entries, changes exactly
that many records, and every preview entry carries the same delay and the same new
scheduled instant that `apply_cascade` writes for the corresponding record. -/
theorem preview_cascade_matches_apply_cascade (r : Review) (a : Option Int)
    (db : List Review) (c : Int) (h1 : r.status = "completed")
    (h2 : completionDate r a = some c) :
    ∃ db', apply_cascade r a db = Except.ok ((preview_cascade r a db).length, db') ∧
      db'.length = db.length ∧
      ((db.zip db').countP fun p => decide (p.1.scheduled_date ≠ p.2.scheduled_date)) =
        (preview_cascade r a db).length ∧
      ∀ e ∈ preview_cascade r a db,
        e.delay_days = calculate_delay r.scheduled_date c ∧
        e.new_date = e.old_date + e.delay_days * microsPerDay ∧
        ∃ i, ∃ hi : i < db.length, ∃ hi' : i < db'.length,
          db[i].id = e.review_id ∧ db[i].scheduled_date = e.old_date ∧
          db'[i].scheduled_date = e.new_date := by
  by_cases hz : calculate_delay r.scheduled_date c = 0
  · refine ⟨db, ?_, rfl, ?_, ?_⟩
    · rw [apply_cascade, h2]
      simp only [h1, ne_eq, not_true_eq_false, if_false, if_pos hz]
      rw [preview_cascade, h2]
      simp [hz]
    · rw [preview_cascade, h2]
      simp only [hz, if_pos rfl]
      exact zip_self_countP_ne db
    · rw [preview_cascade, h2]
      simp [hz]
  · have hpos : 0 < calculate_delay r.scheduled_date c := by
      have : 0 ≤ calculate_delay r.scheduled_date c := le_max_left 0 _
      omega
    have hday : 0 < calculate_delay r.scheduled_date c * microsPerDay := by
      have h1d : microsPerDay ≤ calculate_delay r.scheduled_date c * microsPerDay :=
        le_mul_of_one_le_left (by decide) (by omega)
      have : (0:Int) < microsPerDay := by decide
      omega
    set d := calculate_delay r.scheduled_date c with hd
    set f : Review → Review := fun rev =>
      if futurePred r.chain_id r.iteration_number rev then
        { rev with scheduled_date := rev.scheduled_date + d * microsPerDay }
      else rev with hf
    have happly : apply_cascade r a db = Except.ok
        ((get_future_reviews_in_chain db r.chain_id r.iteration_number).length,
          db.map f) := by
      rw [apply_cascade, h2]
      simp only [h1, ne_eq, not_true_eq_false, if_false, if_neg hz]
    have hpreview : preview_cascade r a db =
        (get_future_reviews_in_chain db r.chain_id r.iteration_number).map
          (fun rev => (⟨rev.id, rev.iteration_number, rev.scheduled_date,
            rev.scheduled_date + d * microsPerDay, d⟩ : PreviewEntry)) := by
      rw [preview_cascade, h2]
      simp only [if_neg hz]
    refine ⟨db.map f, ?_, by simp, ?_, ?_⟩
    · rw [happly, hpreview, List.length_map]
    · rw [hpreview, List.length_map, zip_map_countP]
      have hfut : (get_future_reviews_in_chain db r.chain_id r.iteration_number).length
          = db.countP (futurePred r.chain_id r.iteration_number) := by
        rw [get_future_reviews_in_chain, List.length_insertionSort,
          List.countP_eq_length_filter]
      rw [hfut]
      refine List.countP_congr ?_
      intro rev _
      by_cases hp : futurePred r.chain_id r.iteration_number rev
      · simp only [hf, if_pos hp, hp, iff_true, decide_eq_true_eq]
        omega
      · simp only [hf, if_neg hp]
        simp only [ne_eq, not_true_eq_false, decide_not, decide_eq_true_eq]
        simpa using hp
    · intro e he
      rw [hpreview] at he
      obtain ⟨rev, hrevmem, hreveq⟩ := List.mem_map.mp he
      have hrev_filter : rev ∈ db.filter (futurePred r.chain_id r.iteration_number) :=
        (List.Perm.mem_iff (List.perm_insertionSort iterLE
          (db.filter (futurePred r.chain_id r.iteration_number)))).mp
          (by simpa [get_future_reviews_in_chain] using hrevmem)
      have hrev_db : rev ∈ db := (List.mem_filter.mp hrev_filter).1
      have hrev_pred : futurePred r.chain_id r.iteration_number rev = true :=
        (List.mem_filter.mp hrev_filter).2
      obtain ⟨⟨i, hi⟩, hgeteq⟩ := List.mem_iff_get.mp hrev_db
      subst hreveq
      refine ⟨rfl, rfl, i, hi, by simpa using hi, ?_, ?_, ?_⟩
      · simp [List.get_eq_getElem] at hgeteq
        rw [hgeteq]
      · simp [List.get_eq_getElem] at hgeteq
        rw [hgeteq]
      · rw [List.getElem_map]
        simp only [List.get_eq_getElem] at hgeteq
        rw [hgeteq]
        simp [hf, hrev_pred]


theorem preview_cascade_matches_apply_cascade_witness :
    ∃ db', apply_cascade ⟨1, "c", 1, 0, some (2 * microsPerDay), "completed"⟩ none
        [⟨2, "c", 2, 7 * microsPerDay, none, "pending"⟩,
         ⟨3, "c", 3, 18 * microsPerDay, none, "pending"⟩] = Except.ok
        ((preview_cascade ⟨1, "c", 1, 0, some (2 * microsPerDay), "completed"⟩ none
          [⟨2, "c", 2, 7 * microsPerDay, none, "pending"⟩,
           ⟨3, "c", 3, 18 * microsPerDay, none, "pending"⟩]).length, db') ∧
      db'.length = ([⟨2, "c", 2, 7 * microsPerDay, none, "pending"⟩,
        ⟨3, "c", 3, 18 * microsPerDay, none, "pending"⟩] : List Review).length ∧
      ((([⟨2, "c", 2, 7 * microsPerDay, none, "pending"⟩,
          ⟨3, "c", 3, 18 * microsPerDay, none, "pending"⟩] : List Review).zip db').countP
        fun p => decide (p.1.scheduled_date ≠ p.2.scheduled_date)) =
        (preview_cascade ⟨1, "c", 1, 0, some (2 * microsPerDay), "completed"⟩ none
          [⟨2, "c", 2, 7 * microsPerDay, none, "pending"⟩,
           ⟨3, "c", 3, 18 * microsPerDay, none, "pending"⟩]).length ∧
      ∀ e ∈ preview_cascade ⟨1, "c", 1, 0, some (2 * microsPerDay), "completed"⟩ none
          [⟨2, "c", 2, 7 * microsPerDay, none, "pending"⟩,
           ⟨3, "c", 3, 18 * microsPerDay, none, "pending"⟩],
        e.delay_days = calculate_delay 0 (2 * microsPerDay) ∧
        e.new_date = e.old_date + e.delay_days * microsPerDay ∧
        ∃ i, ∃ hi : i < ([⟨2, "c", 2, 7 * microsPerDay, none, "pending"⟩,
            ⟨3, "c", 3, 18 * microsPerDay, none, "pending"⟩] : List Review).length,
          ∃ hi' : i < db'.length,
          ([⟨2, "c", 2, 7 * microsPerDay, none, "pending"⟩,
            ⟨3, "c", 3, 18 * microsPerDay, none, "pending"⟩] : List Review)[i].id =
            e.review_id ∧
          ([⟨2, "c", 2, 7 * microsPerDay, none, "pending"⟩,
            ⟨3, "c", 3, 18 * microsPerDay, none, "pending"⟩] : List Review)[i].scheduled_date =
            e.old_date ∧
          db'[i].scheduled_date = e.new_date :=
  preview_cascade_matches_apply_cascade
    ⟨1, "c", 1, 0, some (2 * microsPerDay), "completed"⟩ none
    [⟨2, "c", 2, 7 * microsPerDay, none, "pending"⟩,
     ⟨3, "c", 3, 18 * microsPerDay, none, "pending"⟩] (2 * microsPerDay) rfl rfl

/-! ## C7: due reviews are the pending records on or before local end of day -/

/-- C7: the due query returns exactly (as a permutation, and with a membership
characterisation) the pending records whose scheduled instant is on or before the
end of the reference instant's calendar day in the caller's local timezone
expressed back in UTC, ordered by scheduled instant ascending. -/
theorem get_due_reviews_spec (reference tzOffset : Int) (db : List Review) :
    ((get_due_reviews reference tzOffset db).Perm (db.filter fun rev =>
        rev.status == "pending" &&
          decide (rev.scheduled_date ≤ end_of_today_local_in_utc reference tzOffset))) ∧
    (∀ rev, rev ∈ get_due_reviews reference tzOffset db ↔
      (rev ∈ db ∧ rev.status = "pending" ∧
        rev.scheduled_date ≤ end_of_today_local_in_utc reference tzOffset)) ∧
    List.Sorted schedLE (get_due_reviews reference tzOffset db) := by
  refine ⟨?_, ?_, ?_⟩
  · exact List.perm_insertionSort _ _
  · intro rev
    rw [get_due_reviews]
    rw [List.mem_insertionSort, List.mem_filter]
    simp [and_assoc]
  · exact List.sorted_insertionSort _ _


/-! ## C8: chain statistics -/

instance : Std.Commutative (α := Int) max := ⟨max_comm⟩

instance : Std.Associative (α := Int) max := ⟨max_assoc⟩

lemma delay_days_nonneg (rev : Review) : 0 ≤ delay_days rev := by
  unfold delay_days
  cases rev.actual_completion_date
  · exact le_refl 0
  · exact le_max_left 0 _

lemma filterMap_delay_eq_map (l : List Review)
    (h : ∀ rev ∈ l, rev.actual_completion_date.isSome) :
    (l.filterMap fun rev =>
      rev.actual_completion_date.map fun cd => calculate_delay rev.scheduled_date cd) =
      l.map delay_days := by
  induction l with
  | nil => rfl
  | cons x xs ih =>
    have hx := h x (List.mem_cons_self x xs)
    obtain ⟨cd, hcd⟩ := Option.isSome_iff_exists.mp hx
    rw [List.filterMap_cons, List.map_cons, hcd]
    simp only [Option.map_some']
    rw [ih fun rev hrev => h rev (List.mem_cons_of_mem x hrev)]
    congr 1
    unfold delay_days calculate_delay
    rw [hcd]

lemma isEmpty_iff_len (l : List Int) : l.isEmpty = true ↔ l.length = 0 := by
  cases l <;> simp

/-- C8: on a chain with no records the statistics are all zero; otherwise (given
every completed record carries its completion instant, as `Review.complete` always
sets) the counts are per status, the total delay is the sum of each completed
record's own floored-at-zero day delay, the nonzero-delay count and maximum are
over those same delays, and the mean divides by the number of completed records
only. -/
theorem cascade_statistics_spec (chain_id : String) (db : List Review)
    (hc : ∀ rev ∈ chainRecords chain_id db, rev.status = "completed" →
      rev.actual_completion_date.isSome) :
    (chainRecords chain_id db = [] →
      get_cascade_statistics chain_id db = ⟨0, 0, 0, 0, 0, 0, 0⟩) ∧
    (get_cascade_statistics chain_id db).total_reviews =
      (chainRecords chain_id db).length ∧
    (get_cascade_statistics chain_id db).completed_reviews =
      (completedRecords chain_id db).length ∧
    (get_cascade_statistics chain_id db).pending_reviews =
      ((chainRecords chain_id db).filter fun rev => rev.status == "pending").length ∧
    (get_cascade_statistics chain_id db).total_delay_days =
      ((completedRecords chain_id db).map delay_days).sum ∧
    (get_cascade_statistics chain_id db).reviews_with_delay =
      ((completedRecords chain_id db).map delay_days).countP (fun d => decide (0 < d)) ∧
    (get_cascade_statistics chain_id db).max_delay_days =
      ((completedRecords chain_id db).map delay_days).foldl max 0 ∧
    (get_cascade_statistics chain_id db).average_delay_days =
      (if (completedRecords chain_id db).length = 0 then 0 else
        (((completedRecords chain_id db).map delay_days).sum : ℚ) /
          ((completedRecords chain_id db).length : ℚ)) := by
  by_cases hemp : chainRecords chain_id db = []
  · have hstats : get_cascade_statistics chain_id db = ⟨0, 0, 0, 0, 0, 0, 0⟩ := by
      unfold get_cascade_statistics
      rw [hemp]
      rfl
    have hcomp : completedRecords chain_id db = [] := by
      unfold completedRecords
      rw [hemp]
      rfl
    rw [hstats, hcomp, hemp]
    exact ⟨fun _ => rfl, rfl, rfl, rfl, rfl, rfl, rfl, rfl⟩
  · have hne : (List.insertionSort iterLE (chainRecords chain_id db)).isEmpty ≠ true := by
      intro hx
      apply hemp
      have hlen := List.length_insertionSort iterLE (chainRecords chain_id db)
      rcases hs : List.insertionSort iterLE (chainRecords chain_id db) with _ | ⟨y, ys⟩
      · rw [hs] at hlen
        exact List.length_eq_zero.mp hlen.symm
      · rw [hs] at hx
        simp at hx
    have hperm : (List.insertionSort iterLE (chainRecords chain_id db)).Perm
        (chainRecords chain_id db) := List.perm_insertionSort _ _
    have hcperm : ((List.insertionSort iterLE (chainRecords chain_id db)).filter
        (fun rev => rev.status == "completed")).Perm (completedRecords chain_id db) :=
      hperm.filter _
    have hcall : ∀ rev ∈ (List.insertionSort iterLE (chainRecords chain_id db)).filter
        (fun rev => rev.status == "completed"), rev.actual_completion_date.isSome := by
      intro rev hrev
      obtain ⟨hmem, hstat⟩ := List.mem_filter.mp hrev
      exact hc rev (hperm.mem_iff.mp hmem) (by simpa using hstat)
    have hdl : ((List.insertionSort iterLE (chainRecords chain_id db)).filter
        (fun rev => rev.status == "completed")).filterMap (fun rev =>
          rev.actual_completion_date.map fun cd =>
            calculate_delay rev.scheduled_date cd) =
        ((List.insertionSort iterLE (chainRecords chain_id db)).filter
          (fun rev => rev.status == "completed")).map delay_days :=
      filterMap_delay_eq_map _ hcall
    have hmapperm : (((List.insertionSort iterLE (chainRecords chain_id db)).filter
        (fun rev => rev.status == "completed")).map delay_days).Perm
        ((completedRecords chain_id db).map delay_days) := hcperm.map _
    have hlen_eq : (((List.insertionSort iterLE (chainRecords chain_id db)).filter
        (fun rev => rev.status == "completed")).map delay_days).length =
        ((completedRecords chain_id db).map delay_days).length := hmapperm.length_eq
    refine ⟨fun h => absurd h hemp, ?_, ?_, ?_, ?_, ?_, ?_, ?_⟩
    · simp only [get_cascade_statistics, if_neg hne]
      exact hperm.length_eq
    · simp only [get_cascade_statistics, if_neg hne]
      exact hcperm.length_eq
    · simp only [get_cascade_statistics, if_neg hne]
      exact (hperm.filter _).length_eq
    · simp only [get_cascade_statistics, if_neg hne]
      rw [hdl]
      exact hmapperm.sum_eq
    · simp only [get_cascade_statistics, if_neg hne]
      rw [hdl]
      exact hmapperm.countP_eq _
    · simp only [get_cascade_statistics, if_neg hne]
      rw [hdl]
      rcases hdel : List.map delay_days
          ((List.insertionSort iterLE (chainRecords chain_id db)).filter
            (fun rev => rev.status == "completed")) with _ | ⟨d, ds⟩
      · have hnil : List.map delay_days (completedRecords chain_id db) = [] := by
          have hp := hmapperm
          rw [hdel] at hp
          exact (hp.symm).eq_nil
        rw [hnil]
        rfl
      · show List.foldl max d ds = _
        have hperm2 : (d :: ds).Perm
            (List.map delay_days (completedRecords chain_id db)) := by
          rw [← hdel]
          exact hmapperm
        have hd0 : 0 ≤ d := by
          have hmem : d ∈ List.map delay_days
              ((List.insertionSort iterLE (chainRecords chain_id db)).filter
                (fun rev => rev.status == "completed")) := by
            rw [hdel]
            exact List.mem_cons_self d ds
          obtain ⟨rev, -, hrev⟩ := List.mem_map.mp hmem
          exact hrev ▸ delay_days_nonneg rev
        have hstep : List.foldl max d ds = List.foldl max 0 (d :: ds) := by
          rw [List.foldl_cons, max_eq_right hd0]
        rw [hstep]
        exact hperm2.foldl_eq 0
    · simp only [get_cascade_statistics, if_neg hne]
      rw [hdl]
      by_cases h0 : (completedRecords chain_id db).length = 0
      · rw [if_pos h0]
        rw [if_pos (by
          rw [isEmpty_iff_len, hlen_eq, List.length_map]
          exact h0)]
      · rw [if_neg h0]
        rw [if_neg (by
          rw [isEmpty_iff_len, hlen_eq, List.length_map]
          exact h0)]
        rw [hmapperm.sum_eq, hlen_eq, List.length_map]


theorem cascade_statistics_spec_witness :
    (chainRecords "c" [⟨1, "c", 1, 0, some (3 * microsPerDay), "completed"⟩,
        ⟨2, "c", 2, 10 * microsPerDay, some (10 * microsPerDay), "completed"⟩,
        ⟨3, "c", 3, 20 * microsPerDay, none, "pending"⟩,
        ⟨4, "d", 1, 0, none, "pending"⟩] = [] →
      get_cascade_statistics "c" [⟨1, "c", 1, 0, some (3 * microsPerDay), "completed"⟩,
        ⟨2, "c", 2, 10 * microsPerDay, some (10 * microsPerDay), "completed"⟩,
        ⟨3, "c", 3, 20 * microsPerDay, none, "pending"⟩,
        ⟨4, "d", 1, 0, none, "pending"⟩] = ⟨0, 0, 0, 0, 0, 0, 0⟩) ∧
    (get_cascade_statistics "c" [⟨1, "c", 1, 0, some (3 * microsPerDay), "completed"⟩,
        ⟨2, "c", 2, 10 * microsPerDay, some (10 * microsPerDay), "completed"⟩,
        ⟨3, "c", 3, 20 * microsPerDay, none, "pending"⟩,
        ⟨4, "d", 1, 0, none, "pending"⟩]).total_reviews =
      (chainRecords "c" [⟨1, "c", 1, 0, some (3 * microsPerDay), "completed"⟩,
        ⟨2, "c", 2, 10 * microsPerDay, some (10 * microsPerDay), "completed"⟩,
        ⟨3, "c", 3, 20 * microsPerDay, none, "pending"⟩,
        ⟨4, "d", 1, 0, none, "pending"⟩]).length ∧
    (get_cascade_statistics "c" [⟨1, "c", 1, 0, some (3 * microsPerDay), "completed"⟩,
        ⟨2, "c", 2, 10 * microsPerDay, some (10 * microsPerDay), "completed"⟩,
        ⟨3, "c", 3, 20 * microsPerDay, none, "pending"⟩,
        ⟨4, "d", 1, 0, none, "pending"⟩]).completed_reviews =
      (completedRecords "c" [⟨1, "c", 1, 0, some (3 * microsPerDay), "completed"⟩,
        ⟨2, "c", 2, 10 * microsPerDay, some (10 * microsPerDay), "completed"⟩,
        ⟨3, "c", 3, 20 * microsPerDay, none, "pending"⟩,
        ⟨4, "d", 1, 0, none, "pending"⟩]).length ∧
    (get_cascade_statistics "c" [⟨1, "c", 1, 0, some (3 * microsPerDay), "completed"⟩,
        ⟨2, "c", 2, 10 * microsPerDay, some (10 * microsPerDay), "completed"⟩,
        ⟨3, "c", 3, 20 * microsPerDay, none, "pending"⟩,
        ⟨4, "d", 1, 0, none, "pending"⟩]).pending_reviews =
      ((chainRecords "c" [⟨1, "c", 1, 0, some (3 * microsPerDay), "completed"⟩,
        ⟨2, "c", 2, 10 * microsPerDay, some (10 * microsPerDay), "completed"⟩,
        ⟨3, "c", 3, 20 * microsPerDay, none, "pending"⟩,
        ⟨4, "d", 1, 0, none, "pending"⟩]).filter fun rev =>
          rev.status == "pending").length ∧
    (get_cascade_statistics "c" [⟨1, "c", 1, 0, some (3 * microsPerDay), "completed"⟩,
        ⟨2, "c", 2, 10 * microsPerDay, some (10 * microsPerDay), "completed"⟩,
        ⟨3, "c", 3, 20 * microsPerDay, none, "pending"⟩,
        ⟨4, "d", 1, 0, none, "pending"⟩]).total_delay_days =
      ((completedRecords "c" [⟨1, "c", 1, 0, some (3 * microsPerDay), "completed"⟩,
        ⟨2, "c", 2, 10 * microsPerDay, some (10 * microsPerDay), "completed"⟩,
        ⟨3, "c", 3, 20 * microsPerDay, none, "pending"⟩,
        ⟨4, "d", 1, 0, none, "pending"⟩]).map delay_days).sum ∧
    (get_cascade_statistics "c" [⟨1, "c", 1, 0, some (3 * microsPerDay), "completed"⟩,
        ⟨2, "c", 2, 10 * microsPerDay, some (10 * microsPerDay), "completed"⟩,
        ⟨3, "c", 3, 20 * microsPerDay, none, "pending"⟩,
        ⟨4, "d", 1, 0, none, "pending"⟩]).reviews_with_delay =
      ((completedRecords "c" [⟨1, "c", 1, 0, some (3 * microsPerDay), "completed"⟩,
        ⟨2, "c", 2, 10 * microsPerDay, some (10 * microsPerDay), "completed"⟩,
        ⟨3, "c", 3, 20 * microsPerDay, none, "pending"⟩,
        ⟨4, "d", 1, 0, none, "pending"⟩]).map delay_days).countP
        (fun d => decide (0 < d)) ∧
    (get_cascade_statistics "c" [⟨1, "c", 1, 0, some (3 * microsPerDay), "completed"⟩,
        ⟨2, "c", 2, 10 * microsPerDay, some (10 * microsPerDay), "completed"⟩,
        ⟨3, "c", 3, 20 * microsPerDay, none, "pending"⟩,
        ⟨4, "d", 1, 0, none, "pending"⟩]).max_delay_days =
      ((completedRecords "c" [⟨1, "c", 1, 0, some (3 * microsPerDay), "completed"⟩,
        ⟨2, "c", 2, 10 * microsPerDay, some (10 * microsPerDay), "completed"⟩,
        ⟨3, "c", 3, 20 * microsPerDay, none, "pending"⟩,
        ⟨4, "d", 1, 0, none, "pending"⟩]).map delay_days).foldl max 0 ∧
    (get_cascade_statistics "c" [⟨1, "c", 1, 0, some (3 * microsPerDay), "completed"⟩,
        ⟨2, "c", 2, 10 * microsPerDay, some (10 * microsPerDay), "completed"⟩,
        ⟨3, "c", 3, 20 * microsPerDay, none, "pending"⟩,
        ⟨4, "d", 1, 0, none, "pending"⟩]).average_delay_days =
      (if (completedRecords "c" [⟨1, "c", 1, 0, some (3 * microsPerDay), "completed"⟩,
          ⟨2, "c", 2, 10 * microsPerDay, some (10 * microsPerDay), "completed"⟩,
          ⟨3, "c", 3, 20 * microsPerDay, none, "pending"⟩,
          ⟨4, "d", 1, 0, none, "pending"⟩]).length = 0 then 0 else
        (((completedRecords "c" [⟨1, "c", 1, 0, some (3 * microsPerDay), "completed"⟩,
          ⟨2, "c", 2, 10 * microsPerDay, some (10 * microsPerDay), "completed"⟩,
          ⟨3, "c", 3, 20 * microsPerDay, none, "pending"⟩,
          ⟨4, "d", 1, 0, none, "pending"⟩]).map delay_days).sum : ℚ) /
          ((completedRecords "c" [⟨1, "c", 1, 0, some (3 * microsPerDay), "completed"⟩,
          ⟨2, "c", 2, 10 * microsPerDay, some (10 * microsPerDay), "completed"⟩,
          ⟨3, "c", 3, 20 * microsPerDay, none, "pending"⟩,
          ⟨4, "d", 1, 0, none, "pending"⟩]).length : ℚ)) :=
  cascade_statistics_spec "c"
    [⟨1, "c", 1, 0, some (3 * microsPerDay), "completed"⟩,
     ⟨2, "c", 2, 10 * microsPerDay, some (10 * microsPerDay), "completed"⟩,
     ⟨3, "c", 3, 20 * microsPerDay, none, "pending"⟩,
     ⟨4, "d", 1, 0, none, "pending"⟩] (by decide)
